import Mathlib

/-!
Koshroy/imap: dispatch and session core.

A shallow embedding of `handlers.go` and `session.go`.

* A Go `string` is a sequence of bytes: `Str` is a list of byte values.
* A `bytes.Buffer` is the sequence of bytes written to it so far.
* A handler receives the reply by pointer and may write to its two buffers; here it is a
  function from the reply before the call to the reply after it.
* The connection is a pair of byte streams: `rd`, the bytes the peer sends before the read
  side fails (end of stream or deadline), and `wr`, the bytes the connection has accepted so
  far. `wlimit` is the number of further bytes the connection accepts before its write side
  fails (`none`: it never fails).
* The buffered writer of `lineBuff` is `wbuf`, the bytes in its buffer, and `werr`, its error
  state: an error of the connection is kept there, and from then on `WriteString` and `Flush`
  return it and write nothing.
* `log.Println` has no effect on the session and is left out.
* A runtime panic (index out of range) is the outcome `Run.panic`.
-/

namespace Imap

/-- A Go string: its bytes, in order. -/
abbrev Str := List Nat

/-- The bytes of an ASCII string literal. -/
def ascii (s : String) : Str := s.toList.map Char.toNat

/-- The byte " ". -/
def sp : Nat := 32

/-- The byte "\n". -/
def nl : Nat := 10

/-- The byte "\r". -/
def cr : Nat := 13

/-! ## The standard-library string functions the program calls -/

/-- `strings.Index(s, sep)` for a one-byte `sep`: the index of the first occurrence of `sep`
in `s`, or `-1` when there is none. -/
def Index : Str → Nat → Int
  | [], _ => -1
  | c :: cs, sep =>
    if c = sep then 0
    else if Index cs sep < 0 then -1 else Index cs sep + 1

/-- `strings.Split(s, sep)` for a one-byte `sep`: the pieces of `s` between the occurrences
of `sep`; one more piece than there are separators, so never empty. -/
def Split : Str → Nat → List Str
  | [], _ => [[]]
  | c :: cs, sep =>
    if c = sep then [] :: Split cs sep
    else
      match Split cs sep with
      | [] => [[c]]
      | x :: xs => (c :: x) :: xs

/-- `strings.Join(elems, sep)` for a one-byte `sep`. -/
def Join : List Str → Nat → Str
  | [], _ => []
  | [x], _ => x
  | x :: y :: ys, sep => x ++ sep :: Join (y :: ys) sep

/-- The ASCII branch of `strings.ToLower` on one byte: "A".."Z" become "a".."z". -/
def lowerByte (c : Nat) : Nat :=
  if 65 ≤ c ∧ c ≤ 90 then c + 32 else c

/-- `strings.ToLower(s)`: when every byte of `s` is below `utf8.RuneSelf` (0x80) the bytes
"A".."Z" are replaced by "a".."z"; otherwise the result is `strings.Map(unicode.ToLower, s)`,
which depends on the Unicode tables and is the parameter `U`. -/
def ToLower (U : Str → Str) (s : Str) : Str :=
  if s.all (fun c => decide (c < 128)) then s.map lowerByte else U s

/-- `strings.Replace(s, "\r\n", "", -1)`: every "\r\n" of `s`, scanning from the left, is
removed. -/
def ReplaceCRLF : Str → Str
  | [] => []
  | [c] => [c]
  | c :: d :: rest =>
    if c = cr ∧ d = nl then ReplaceCRLF rest else c :: ReplaceCRLF (d :: rest)

/-- `bufio.Reader.ReadString(delim)`: the bytes up to and including the first `delim`,
together with the bytes left in the stream; `none` (an error) when the stream ends before a
`delim` is seen. -/
def ReadString : Str → Nat → Option (Str × Str)
  | [], _ => none
  | c :: cs, delim =>
    if c = delim then some ([c], cs)
    else
      match ReadString cs delim with
      | none => none
      | some (l, rest) => some (c :: l, rest)

/-! ## handlers.go -/

/-- `ImapReply`: `Status` and `Response` are the contents of the buffers behind the two
writers, `Auth` the authentication flag copied into the reply. -/
structure ImapReply where
  Status : Str
  Response : Str
  Auth : Bool
  deriving DecidableEq, Repr

/-- `Handler`: anything with an `ImapCommand(arg, reply)` method. -/
structure Handler where
  ImapCommand : Str → ImapReply → ImapReply

/-- `funcHandler`: the adapter around a plain function. -/
structure funcHandler where
  handleFunc : Str → ImapReply → ImapReply

/-- `(*funcHandler).ImapCommand`. -/
def funcHandler.ImapCommand (f : funcHandler) (arg : Str) (reply : ImapReply) : ImapReply :=
  f.handleFunc arg reply

/-- `newFuncHandler`. -/
def newFuncHandler (hFunc : Str → ImapReply → ImapReply) : funcHandler :=
  { handleFunc := hFunc }

/-- A `*funcHandler` used as a `Handler`. -/
def funcHandler.toHandler (f : funcHandler) : Handler :=
  { ImapCommand := f.ImapCommand }

/-- The text written by `CommandNotFoundHandler`. -/
def badCommand : Str := ascii "BAD error in IMAP command received by server"

/-- `(*CommandNotFoundHandler).ImapCommand`: writes the fixed text to `reply.Response`. -/
def CommandNotFoundHandler.ImapCommand (_arg : Str) (reply : ImapReply) : ImapReply :=
  { reply with Response := reply.Response ++ badCommand }

/-- `CommandNotFoundHandler` used as a `Handler`. -/
def CommandNotFoundHandler.toHandler : Handler :=
  { ImapCommand := CommandNotFoundHandler.ImapCommand }

/-- `AuthHandler`: anything with an `Authenticate(username, password) bool` method. -/
structure AuthHandler where
  Authenticate : Str → Str → Bool

/-- `(*DummyAuthHandler).Authenticate`. -/
def DummyAuthHandler.Authenticate (_username _password : Str) : Bool := false

/-- `DummyAuthHandler` used as an `AuthHandler`. -/
def DummyAuthHandler.toAuthHandler : AuthHandler :=
  { Authenticate := DummyAuthHandler.Authenticate }

/-- `ServeMux`: `handlerTable` is a `map[string]Handler`, here the lookup function of the
map. -/
structure ServeMux where
  handlerTable : Str → Option Handler

/-- `(*ServeMux).Handle`: `s.handlerTable[command] = handler`. -/
def ServeMux.Handle (s : ServeMux) (command : Str) (handler : Handler) : ServeMux :=
  { handlerTable := fun k => if k = command then some handler else s.handlerTable k }

/-- `(*ServeMux).HandleFunc`: `s.handlerTable[command] = newFuncHandler(handler)`. -/
def ServeMux.HandleFunc (s : ServeMux) (command : Str)
    (handler : Str → ImapReply → ImapReply) : ServeMux :=
  { handlerTable := fun k =>
      if k = command then some (newFuncHandler handler).toHandler else s.handlerTable k }

/-- `(*ServeMux).ImapCommand`. The result is `none` when indexing the split panics. -/
def ServeMux.ImapCommand (U : Str → Str) (s : ServeMux) (inputCommand : Str)
    (reply : ImapReply) : Option ImapReply :=
  let inputCommandSplit := Split inputCommand sp
  match inputCommandSplit[0]? with
  | none => none
  | some tok =>
    match s.handlerTable (ToLower U tok) with
    | none => some (CommandNotFoundHandler.ImapCommand inputCommand reply)
    | some h => some (h.ImapCommand inputCommand reply)

/-- `NewServeMux`: an empty table. -/
def NewServeMux : ServeMux :=
  { handlerTable := fun _ => none }

/-- The test of `validTag` on one byte: "0".."9", "A".."Z" or "a".."z". -/
def alnumByte (b : Nat) : Bool :=
  (48 ≤ b && b ≤ 57) || (65 ≤ b && b ≤ 90) || (97 ≤ b && b ≤ 122)

/-- `validTag`: `false` at the first byte that is not alphanumeric, `true` at the end. -/
def validTag : Str → Bool
  | [] => true
  | b :: bs => if !alnumByte b then false else validTag bs

/-! ## session.go -/

/-- `Session`. `conn` is the three fields `rd`, `wr` and `wlimit`; `lineBuff` is the reader
on `rd` and the writer `wbuf`, `werr`. -/
structure Session where
  auth : Bool
  closed : Bool
  srvMux : ServeMux
  authHandle : AuthHandler
  timeout : Nat
  rd : Str
  wr : Str
  wlimit : Option Nat
  wbuf : Str
  werr : Bool

/-- `(*Session).ReadLine`: the session after the read and the line, or `none` for an
error. -/
def Session.ReadLine (s : Session) : Session × Option Str :=
  match ReadString s.rd nl with
  | none => ({ s with rd := [] }, none)
  | some (l, rest) => ({ s with rd := rest }, some (ReplaceCRLF l))

/-- The size of the buffer of `bufio.NewWriter`. -/
def bufSize : Nat := 4096

/-- `conn.Write(p)`: the session after the call and whether an error is returned. The
connection accepts `p` whole when its limit allows, and otherwise the bytes up to the limit,
with an error. -/
def Session.connWrite (s : Session) (p : Str) : Session × Bool :=
  match s.wlimit with
  | none => ({ s with wr := s.wr ++ p }, false)
  | some k =>
    if p.length ≤ k then ({ s with wr := s.wr ++ p, wlimit := some (k - p.length) }, false)
    else ({ s with wr := s.wr ++ p.take k, wlimit := some 0 }, true)

/-- `s.lineBuff.WriteString(str)`: the session after the call and whether an error is
returned. In the error state nothing is done. Otherwise, while more than fits in the buffer
is left, the buffer is filled and written to the connection: of the buffered bytes followed
by `str`, the whole buffers before the last, `bufSize * ((length - 1) / bufSize)` bytes, go
to the connection and the rest stays in the buffer. An error of the connection is kept and
returned; what the buffer holds from then on is of no consequence, it is never written. -/
def Session.lineBuffWriteString (s : Session) (str : Str) : Session × Bool :=
  if s.werr then (s, true)
  else
    let total := s.wbuf ++ str
    let full := bufSize * ((total.length - 1) / bufSize)
    match s.connWrite (total.take full) with
    | (s1, true) => ({ s1 with werr := true }, true)
    | (s1, false) => ({ s1 with wbuf := total.drop full }, false)

/-- `s.lineBuff.Flush()`: the session after the call and whether an error is returned. In
the error state nothing is done. Otherwise the buffer is written to the connection; an
error of the connection is kept and returned. -/
def Session.lineBuffFlush (s : Session) : Session × Bool :=
  if s.werr then (s, true)
  else
    match s.connWrite s.wbuf with
    | (s1, true) => ({ s1 with werr := true }, true)
    | (s1, false) => ({ s1 with wbuf := [] }, false)

/-- `(*Session).WriteLine`: the session after the call and whether an error is returned.
The error of `WriteString` is returned; the error of `Flush` is dropped. -/
def Session.WriteLine (s : Session) (writeStr : Str) : Session × Bool :=
  match s.lineBuffWriteString (writeStr ++ [nl]) with
  | (s1, true) => (s1, true)
  | (s1, false) => ((s1.lineBuffFlush).1, false)

/-- `(*Session).WriteLineTag`. -/
def Session.WriteLineTag (s : Session) (tag : Str) (writeStr : Str) : Session × Bool :=
  s.WriteLine (tag ++ sp :: writeStr)

/-- `(*Session).WriteStatus`. -/
def Session.WriteStatus (s : Session) (writeStr : Str) : Session × Bool :=
  s.WriteLineTag (ascii "*") writeStr

/-- `(*Session).Authenticate`. -/
def Session.Authenticate (s : Session) (username password : Str) : Session :=
  { s with auth := s.authHandle.Authenticate username password }

/-- `(*Session).IsAuth`. -/
def Session.IsAuth (s : Session) : Bool := s.auth

/-- `DefaultAuthHander`: the package-level gate, `&DummyAuthHandler{}`. -/
def DefaultAuthHander : AuthHandler := DummyAuthHandler.toAuthHandler

/-- `NewSession`: `DefaultServeMux` is the package-level router at the time of the call;
the connection is `conn`, the bytes the peer will send, and `connLimit`, the number of bytes
it accepts before its write side fails. -/
def NewSession (DefaultServeMux : ServeMux) (conn : Str) (connLimit : Option Nat)
    (timeout : Nat) : Session :=
  { auth := false, closed := false, srvMux := DefaultServeMux,
    authHandle := DefaultAuthHander, timeout := timeout,
    rd := conn, wr := [], wlimit := connLimit, wbuf := [], werr := false }

/-! ## handleConn -/

/-- How a piece of `handleConn` ends: normally, or in a runtime panic (index out of range),
each with the session as it is at that point. -/
inductive Run where
  | ok (s : Session)
  | panic (s : Session)

/-- The session a run ends with. -/
def Run.session : Run → Session
  | .ok s => s
  | .panic s => s

/-- Whether a run ended in a panic. -/
def Run.panicked : Run → Bool
  | .ok _ => false
  | .panic _ => true

/-- The end of the loop body of `handleConn` (lines 133-145): the status buffer, when not
empty, is written as one status line, then the response buffer, when not empty, as one line
tagged `tagStr`. A write error is logged and nothing else. -/
def flushReply (session : Session) (tagStr statusBuf respBuf : Str) : Session :=
  let session :=
    if statusBuf.length > 0 then (session.WriteStatus statusBuf).1 else session
  if respBuf.length > 0 then (session.WriteLineTag tagStr respBuf).1 else session

/-- The loop body of `handleConn` after a successful read of the line `l` (lines 104-148). -/
def handleLine (U : Str → Str) (session : Session) (l : Str) : Run :=
  let statusBuf : Str := []
  let respBuf : Str := []
  let recvTagEnd : Int := Index l sp - 1
  if recvTagEnd < 0 then
    -- the reply of the not-found handler stays in the buffers; `err` is nil here
    let _reply := CommandNotFoundHandler.ImapCommand l
      { Status := statusBuf, Response := respBuf, Auth := session.IsAuth }
    .ok session
  else
    let splitL := Split l sp
    let splitL :=
      match splitL with
      | t :: c :: rest => t :: ToLower U c :: rest
      | _ => splitL
    match splitL[0]? with
    | none => .panic session
    | some tagStr =>
      let reply : ImapReply :=
        { Status := statusBuf, Response := respBuf, Auth := session.IsAuth }
      if !validTag tagStr then
        let reply := CommandNotFoundHandler.ImapCommand l reply
        .ok (flushReply session tagStr reply.Status reply.Response)
      else
        match splitL[1]? with
        | none => .panic session
        | some cmd =>
          if cmd = ascii "auth" then
            match splitL[2]? with
            | none => .panic session
            | some arg2 =>
              let session := session.Authenticate cmd arg2
              .ok (flushReply session tagStr reply.Status reply.Response)
          else
            match session.srvMux.ImapCommand U (Join (splitL.drop 1) sp) reply with
            | none => .panic session
            | some reply => .ok (flushReply session tagStr reply.Status reply.Response)

/-- The loop of `handleConn`, at most `fuel` iterations. -/
def handleConnLoop (U : Str → Str) : Nat → Session → Run
  | 0, session => .ok session
  | fuel + 1, session =>
    if session.closed then .ok session
    else
      match session.ReadLine with
      | (session, none) => .ok session
      | (session, some l) =>
        match handleLine U session l with
        | .panic session => .panic session
        | .ok session => handleConnLoop U fuel session

/-- `handleConn`: every iteration that goes on consumes at least one byte of `rd`, so
`rd.length + 1` iterations are enough for the loop to return. -/
def handleConn (U : Str → Str) (session : Session) : Run :=
  handleConnLoop U (session.rd.length + 1) session

/-! ## handleConn with its calls recorded -/

/-- A call that `handleConn` makes: of the gate, with the username and password handed to it
and its answer, or of a handler (the router or the not-found handler), with the string and
the reply handed to it. -/
inductive Event where
  | gate (username password : Str) (result : Bool)
  | handler (arg : Str) (reply : ImapReply)
  deriving DecidableEq, Repr

/-- The loop body of `handleConn` as in `handleLine`, together with the calls it makes, in
the order it makes them. -/
def handleLineTr (U : Str → Str) (session : Session) (l : Str) : Run × List Event :=
  let statusBuf : Str := []
  let respBuf : Str := []
  let recvTagEnd : Int := Index l sp - 1
  if recvTagEnd < 0 then
    let reply : ImapReply :=
      { Status := statusBuf, Response := respBuf, Auth := session.IsAuth }
    (.ok session, [.handler l reply])
  else
    let splitL := Split l sp
    let splitL :=
      match splitL with
      | t :: c :: rest => t :: ToLower U c :: rest
      | _ => splitL
    match splitL[0]? with
    | none => (.panic session, [])
    | some tagStr =>
      let reply : ImapReply :=
        { Status := statusBuf, Response := respBuf, Auth := session.IsAuth }
      if !validTag tagStr then
        let reply1 := CommandNotFoundHandler.ImapCommand l reply
        (.ok (flushReply session tagStr reply1.Status reply1.Response), [.handler l reply])
      else
        match splitL[1]? with
        | none => (.panic session, [])
        | some cmd =>
          if cmd = ascii "auth" then
            match splitL[2]? with
            | none => (.panic session, [])
            | some arg2 =>
              let result := session.authHandle.Authenticate cmd arg2
              let session := session.Authenticate cmd arg2
              (.ok (flushReply session tagStr reply.Status reply.Response),
                [.gate cmd arg2 result])
          else
            match session.srvMux.ImapCommand U (Join (splitL.drop 1) sp) reply with
            | none => (.panic session, [])
            | some reply1 =>
              (.ok (flushReply session tagStr reply1.Status reply1.Response),
                [.handler (Join (splitL.drop 1) sp) reply])

/-- The loop of `handleConn` as in `handleConnLoop`, together with the calls it makes, in
the order it makes them. -/
def handleConnLoopTr (U : Str → Str) : Nat → Session → Run × List Event
  | 0, session => (.ok session, [])
  | fuel + 1, session =>
    if session.closed then (.ok session, [])
    else
      match session.ReadLine with
      | (session, none) => (.ok session, [])
      | (session, some l) =>
        match handleLineTr U session l with
        | (.panic session, calls) => (.panic session, calls)
        | (.ok session, calls) =>
          ((handleConnLoopTr U fuel session).1, calls ++ (handleConnLoopTr U fuel session).2)

/-- The answer of the most recent call of the gate in `calls`, or `init` when the gate is
not called in `calls`. -/
def lastGate (init : Bool) : List Event → Bool
  | [] => init
  | .gate _ _ result :: calls => lastGate result calls
  | .handler _ _ :: calls => lastGate init calls

/-- Every reply handed to a handler in `calls` has as its Auth the answer of the most recent
call of the gate before it, or `init` when there is none. -/
def authFollowsGate (init : Bool) : List Event → Bool
  | [] => true
  | .gate _ _ result :: calls => authFollowsGate result calls
  | .handler _ reply :: calls => (reply.Auth == init) && authFollowsGate init calls

/-! ## Test fixtures -/

/-- A session on the input `conn` with the given router and gate, on a connection that
never fails. -/
def mkSession (mux : ServeMux) (gate : AuthHandler) (conn : Str) : Session :=
  { auth := false, closed := false, srvMux := mux, authHandle := gate, timeout := 300,
    rd := conn, wr := [], wlimit := none, wbuf := [], werr := false }

/-- A gate that accepts only ("alice", "secret"). -/
def aliceGate : AuthHandler :=
  { Authenticate := fun u p => decide (u = ascii "alice" ∧ p = ascii "secret") }

/-- A handler that writes "OK done" to the response buffer. -/
def okDone : Handler :=
  { ImapCommand := fun _ reply => { reply with Response := reply.Response ++ ascii "OK done" } }

/-- A handler that reports the flag it finds in the reply, "yes" or "no", in the response
buffer, writes "seen" to the status buffer and clears the flag of the reply. -/
def authEcho : Handler :=
  { ImapCommand := fun _ reply =>
      { Status := reply.Status ++ ascii "seen",
        Response := reply.Response ++ (if reply.Auth then ascii "yes" else ascii "no"),
        Auth := false } }

/-- A gate that accepts every username and password. -/
def openGate : AuthHandler :=
  { Authenticate := fun _ _ => true }

/-- The session `r` with the connection's write side and the writer of the session `w`. -/
def Session.withWriterOf (r w : Session) : Session :=
  { r with wr := w.wr, wlimit := w.wlimit, wbuf := w.wbuf, werr := w.werr }

theorem Split_ne_nil (s : Str) (sep : Nat) : Split s sep ≠ [] := by
  cases s with
  | nil => simp [Split]
  | cons c cs =>
    simp only [Split]
    split
    · simp
    · split <;> simp

theorem Index_of_not_mem (s : Str) (sep : Nat) (h : sep ∉ s) : Index s sep = -1 := by
  induction s with
  | nil => rfl
  | cons c cs ih =>
    have hc : ¬ c = sep := fun e => h (by simp [e])
    have hcs : sep ∉ cs := fun e => h (by simp [e])
    simp [Index, hc, ih hcs]

theorem Index_append (tag rest : Str) (sep : Nat) (h : sep ∉ tag) :
    Index (tag ++ sep :: rest) sep = tag.length := by
  induction tag with
  | nil => simp [Index]
  | cons c cs ih =>
    have hc : ¬ c = sep := fun e => h (by simp [e])
    have hcs : sep ∉ cs := fun e => h (by simp [e])
    have hlt : ¬ ((cs.length : Int) < 0) := by omega
    simp [Index, hc, ih hcs, hlt]

theorem Split_append (tag rest : Str) (sep : Nat) (h : sep ∉ tag) :
    Split (tag ++ sep :: rest) sep = tag :: Split rest sep := by
  induction tag with
  | nil => simp [Split]
  | cons c cs ih =>
    have hc : ¬ c = sep := fun e => h (by simp [e])
    have hcs : sep ∉ cs := fun e => h (by simp [e])
    simp [Split, hc, ih hcs]

theorem validTag_iff (tag : Str) : validTag tag = true ↔ ∀ b ∈ tag, alnumByte b = true := by
  induction tag with
  | nil => simp [validTag]
  | cons c cs ih =>
    cases hc : alnumByte c <;> simp [validTag, hc, ih]

theorem validTag_false_of_mem (tag : Str) (h : ∃ b ∈ tag, alnumByte b = false) :
    validTag tag = false := by
  cases hv : validTag tag with
  | false => rfl
  | true =>
    obtain ⟨b, hb, hbad⟩ := h
    have := (validTag_iff tag).1 hv b hb
    simp [hbad] at this

theorem sp_not_mem_of_validTag (tag : Str) (h : validTag tag = true) : sp ∉ tag := by
  intro hmem
  have := (validTag_iff tag).1 h sp hmem
  simp [alnumByte, sp] at this

/-! ## Lemmas on the writer -/

theorem connWrite_writer (s w : Session) (p : Str) :
    (s.connWrite p).1.withWriterOf w = s.withWriterOf w := by
  unfold Session.connWrite
  split
  · rfl
  · split <;> rfl

theorem lineBuffWriteString_writer (s w : Session) (str : Str) :
    (s.lineBuffWriteString str).1.withWriterOf w = s.withWriterOf w := by
  unfold Session.lineBuffWriteString
  split
  · rfl
  · simp only []
    have h := connWrite_writer s w
      ((s.wbuf ++ str).take (bufSize * (((s.wbuf ++ str).length - 1) / bufSize)))
    rcases hc : s.connWrite
        ((s.wbuf ++ str).take (bufSize * (((s.wbuf ++ str).length - 1) / bufSize)))
      with ⟨s1, e⟩
    rw [hc] at h
    cases e <;> exact h

theorem lineBuffFlush_writer (s w : Session) :
    (s.lineBuffFlush).1.withWriterOf w = s.withWriterOf w := by
  unfold Session.lineBuffFlush
  split
  · rfl
  · have h := connWrite_writer s w s.wbuf
    rcases hc : s.connWrite s.wbuf with ⟨s1, e⟩
    rw [hc] at h
    cases e <;> exact h

/-- A write changes nothing but the connection's write side and the writer. -/
theorem WriteLine_writer (s w : Session) (writeStr : Str) :
    (s.WriteLine writeStr).1.withWriterOf w = s.withWriterOf w := by
  unfold Session.WriteLine
  have h := lineBuffWriteString_writer s w (writeStr ++ [nl])
  rcases hc : s.lineBuffWriteString (writeStr ++ [nl]) with ⟨s1, e⟩
  rw [hc] at h
  cases e
  · simp only []
    rw [lineBuffFlush_writer s1 w]
    exact h
  · exact h

/-- With an empty buffer, no error and a connection that never fails, a write puts the
line and its terminator on the connection. -/
theorem WriteLine_ok (s : Session) (writeStr : Str) (hw : s.werr = false)
    (hb : s.wbuf = []) (hl : s.wlimit = none) :
    s.WriteLine writeStr = ({ s with wr := s.wr ++ (writeStr ++ [nl]) }, false) := by
  obtain ⟨au, cl, mux, gate, t, rd, wr, wlimit, wbuf, werr⟩ := s
  simp only at hw hb hl
  subst hw hb hl
  simp [Session.WriteLine, Session.lineBuffWriteString, Session.lineBuffFlush,
    Session.connWrite, List.append_assoc]

theorem flushReply_resp (session : Session) (tagStr respBuf : Str) (hr : respBuf ≠ [])
    (hw : session.werr = false) (hb : session.wbuf = []) (hl : session.wlimit = none) :
    flushReply session tagStr [] respBuf
      = { session with wr := session.wr ++ (tagStr ++ sp :: respBuf ++ [nl]) } := by
  have hlen : 0 < respBuf.length := List.length_pos.2 hr
  simp [flushReply, Session.WriteLineTag, WriteLine_ok _ _ hw hb hl, hlen]

theorem flushReply_empty (session : Session) (tagStr : Str) :
    flushReply session tagStr [] [] = session := by
  simp [flushReply]

theorem Index_cons_sp (rest : Str) : Index (sp :: rest) sp = 0 := by
  simp [Index]

/-- A line has no space, or splits at its first space. -/
theorem line_cases (l : Str) (sep : Nat) :
    sep ∉ l ∨ ∃ tag rest, l = tag ++ sep :: rest ∧ sep ∉ tag := by
  induction l with
  | nil => exact Or.inl (by simp)
  | cons c cs ih =>
    by_cases hc : c = sep
    · exact Or.inr ⟨[], cs, by simp [hc], by simp⟩
    · rcases ih with h | ⟨tag, rest, hl, ht⟩
      · refine Or.inl ?_
        intro hmem
        rcases List.mem_cons.1 hmem with e | e
        · exact hc e.symm
        · exact h e
      · refine Or.inr ⟨c :: tag, rest, by simp [hl], ?_⟩
        intro hmem
        rcases List.mem_cons.1 hmem with e | e
        · exact hc e.symm
        · exact ht e

/-- Joining the pieces of a split with the separator gives the string back. -/
theorem Join_Split (s : Str) (sep : Nat) : Join (Split s sep) sep = s := by
  induction s with
  | nil => simp [Split, Join]
  | cons c cs ih =>
    simp only [Split]
    split
    · next hc =>
      cases hs : Split cs sep with
      | nil => exact absurd hs (Split_ne_nil cs sep)
      | cons x xs =>
        rw [hs] at ih
        simp [Join, ih, hc]
    · cases hs : Split cs sep with
      | nil => exact absurd hs (Split_ne_nil cs sep)
      | cons x xs =>
        rw [hs] at ih
        cases xs with
        | nil =>
          simp only [Join] at ih ⊢
          rw [ih]
        | cons y ys =>
          simp only [Join] at ih ⊢
          rw [← ih]
          simp

/-- The first piece of a split is the start of the string, and the other pieces joined,
behind a separator each, are what follows it. -/
theorem Join_Split_tail (s : Str) (sep : Nat) (x : Str) (xs : List Str) (y : Str)
    (h : Split s sep = x :: xs) : Join (y :: xs) sep = y ++ s.drop x.length := by
  have hj := Join_Split s sep
  rw [h] at hj
  cases xs with
  | nil =>
    simp only [Join] at hj ⊢
    simp [hj]
  | cons z zs =>
    simp only [Join] at hj ⊢
    rw [← hj]
    simp

theorem Split_head_append (s : Str) (sep : Nat) (x : Str) (xs : List Str)
    (h : Split s sep = x :: xs) : s = x ++ s.drop x.length := by
  have hj := Join_Split s sep
  rw [h] at hj
  cases xs with
  | nil =>
    simp only [Join] at hj
    simp [hj]
  | cons z zs =>
    simp only [Join] at hj
    conv_lhs => rw [← hj]
    conv_rhs => rw [← hj]
    simp

theorem ReplaceCRLF_crlf (body : Str) (h : nl ∉ body) :
    ReplaceCRLF (body ++ [cr, nl]) = body := by
  induction body with
  | nil => simp [ReplaceCRLF]
  | cons c cs ih =>
    have hc : nl ∉ cs := fun e => h (by simp [e])
    cases cs with
    | nil =>
      have hne : ¬ (c = cr ∧ cr = nl) := by simp [cr, nl]
      simp only [List.cons_append, List.nil_append, ReplaceCRLF, hne, if_false]
      simp [ReplaceCRLF]
    | cons d ds =>
      have hd : ¬ d = nl := fun e => h (by simp [e])
      have hne : ¬ (c = cr ∧ d = nl) := fun e => hd e.2
      have ih2 := ih hc
      simp only [List.cons_append] at ih2 ⊢
      simp only [ReplaceCRLF, hne, if_false, ih2]

theorem ReplaceCRLF_no_nl (body : Str) (h : nl ∉ body) : ReplaceCRLF body = body := by
  induction body with
  | nil => simp [ReplaceCRLF]
  | cons c cs ih =>
    have hc : nl ∉ cs := fun e => h (by simp [e])
    cases cs with
    | nil => simp [ReplaceCRLF]
    | cons d ds =>
      have hd : ¬ d = nl := fun e => h (by simp [e])
      have hne : ¬ (c = cr ∧ d = nl) := fun e => hd e.2
      simp only [ReplaceCRLF, hne, if_false, ih hc]

theorem ReplaceCRLF_bare_nl (body : Str) (h : nl ∉ body) (hlast : body.getLast? ≠ some cr) :
    ReplaceCRLF (body ++ [nl]) = body ++ [nl] := by
  induction body with
  | nil => simp [ReplaceCRLF]
  | cons c cs ih =>
    have hc : nl ∉ cs := fun e => h (by simp [e])
    cases cs with
    | nil =>
      have hcr : ¬ c = cr := by
        intro e
        apply hlast
        simp [e]
      simp [ReplaceCRLF, hcr]
    | cons d ds =>
      have hd : ¬ d = nl := fun e => h (by simp [e])
      have hne : ¬ (c = cr ∧ d = nl) := fun e => hd e.2
      have hl2 : (d :: ds).getLast? ≠ some cr := by
        intro e
        apply hlast
        simpa [List.getLast?_cons_cons] using e
      have ih2 := ih hc hl2
      simp only [List.cons_append] at ih2 ⊢
      simp only [ReplaceCRLF, hne, if_false, ih2]

theorem ReadString_append (pre more : Str) (delim : Nat) (h : delim ∉ pre) :
    ReadString (pre ++ delim :: more) delim = some (pre ++ [delim], more) := by
  induction pre with
  | nil => simp [ReadString]
  | cons c cs ih =>
    have hc : ¬ c = delim := fun e => h (by simp [e])
    have hcs : delim ∉ cs := fun e => h (by simp [e])
    simp [ReadString, hc, ih hcs]

/-! ## Lemmas on the router -/

/-- A handler registered under the lowercased first token of the input is the one that
`ImapCommand` runs, on the input as it is. -/
theorem ImapCommand_Handle_lower (U : Str → Str) (m : ServeMux) (h : Handler)
    (inputCommand tok : Str) (reply : ImapReply)
    (htok : (Split inputCommand sp)[0]? = some tok) :
    (m.Handle (ToLower U tok) h).ImapCommand U inputCommand reply
      = some (h.ImapCommand inputCommand reply) := by
  simp [ServeMux.ImapCommand, ServeMux.Handle, htok]

/-! ## Lemmas on the session -/

theorem WriteLine_frame (session : Session) (writeStr : Str) :
    (session.WriteLine writeStr).1.auth = session.auth ∧
    (session.WriteLine writeStr).1.authHandle = session.authHandle ∧
    (session.WriteLine writeStr).1.rd = session.rd ∧
    (session.WriteLine writeStr).1.closed = session.closed := by
  have h := WriteLine_writer session session writeStr
  have h1 := congrArg Session.auth h
  have h2 := congrArg Session.authHandle h
  have h3 := congrArg Session.rd h
  have h4 := congrArg Session.closed h
  exact ⟨h1, h2, h3, h4⟩

theorem flushReply_frame (session : Session) (tagStr statusBuf respBuf : Str) :
    (flushReply session tagStr statusBuf respBuf).auth = session.auth ∧
    (flushReply session tagStr statusBuf respBuf).authHandle = session.authHandle ∧
    (flushReply session tagStr statusBuf respBuf).rd = session.rd ∧
    (flushReply session tagStr statusBuf respBuf).closed = session.closed := by
  unfold flushReply Session.WriteStatus Session.WriteLineTag
  simp only []
  split <;> split <;> simp [WriteLine_frame]

theorem handleLine_frame (U : Str → Str) (session : Session) (l : Str) :
    (handleLine U session l).session.authHandle = session.authHandle ∧
    (handleLine U session l).session.rd = session.rd ∧
    ((handleLine U session l).session.auth = session.auth ∨
      ∃ u p, (handleLine U session l).session.auth = session.authHandle.Authenticate u p) := by
  unfold handleLine
  simp only []
  repeat' split
  all_goals
    simp only [Run.session, flushReply_frame, Session.Authenticate, true_and]
  all_goals first
    | exact Or.inl trivial
    | exact Or.inl rfl
    | exact Or.inr ⟨_, _, rfl⟩

/-- A line without a space takes the first branch of the loop body: the session is left
as it is. -/
theorem handleLine_no_space (U : Str → Str) (session : Session) (l : Str) (h : sp ∉ l) :
    handleLine U session l = Run.ok session := by
  simp [handleLine, Index_of_not_mem l sp h]

theorem ReadString_length (s : Str) (delim : Nat) (l rest : Str)
    (h : ReadString s delim = some (l, rest)) : rest.length < s.length := by
  induction s generalizing l with
  | nil => simp [ReadString] at h
  | cons c cs ih =>
    simp only [ReadString] at h
    split at h
    · simp only [Option.some.injEq, Prod.mk.injEq] at h
      simp [← h.2]
    · cases hr : ReadString cs delim with
      | none => simp [hr] at h
      | some q =>
        obtain ⟨l1, r1⟩ := q
        simp only [hr, Option.some.injEq, Prod.mk.injEq] at h
        have := ih l1 (by rw [hr, h.2])
        simp only [List.length_cons]
        omega

/-- The fuel of `handleConn` is enough: with more fuel the loop gives the same run. -/
theorem handleConnLoop_fuel (U : Str → Str) (n m : Nat) (session : Session)
    (hn : session.rd.length < n) (hm : session.rd.length < m) :
    handleConnLoop U n session = handleConnLoop U m session := by
  induction n generalizing m session with
  | zero => omega
  | succ n ih =>
    cases m with
    | zero => omega
    | succ m =>
      simp only [handleConnLoop]
      split
      · rfl
      · cases hrd : ReadString session.rd nl with
        | none => simp [Session.ReadLine, hrd]
        | some q =>
          obtain ⟨l, rest⟩ := q
          have hlt := ReadString_length _ _ _ _ hrd
          simp only [Session.ReadLine, hrd]
          have hf := (handleLine_frame U { session with rd := rest } (ReplaceCRLF l)).2.1
          cases hl : handleLine U { session with rd := rest } (ReplaceCRLF l) with
          | panic s2 => rfl
          | ok s2 =>
            rw [hl] at hf
            have hrest : s2.rd = rest := hf
            exact ih m s2 (by rw [hrest]; omega) (by rw [hrest]; omega)

theorem handleConnLoop_dummy (U : Str → Str) (n : Nat) (session : Session)
    (ha : session.auth = false)
    (hg : session.authHandle = DummyAuthHandler.toAuthHandler) :
    (handleConnLoop U n session).session.auth = false := by
  induction n generalizing session with
  | zero => simpa [handleConnLoop, Run.session] using ha
  | succ n ih =>
    simp only [handleConnLoop]
    split
    · simpa [Run.session] using ha
    · cases hrd : ReadString session.rd nl with
      | none => simpa [Session.ReadLine, hrd, Run.session] using ha
      | some q =>
        obtain ⟨l, rest⟩ := q
        simp only [Session.ReadLine, hrd]
        have hf := handleLine_frame U { session with rd := rest } (ReplaceCRLF l)
        have hauth : (handleLine U { session with rd := rest } (ReplaceCRLF l)).session.auth
            = false := by
          rcases hf.2.2 with h | ⟨u, p, h⟩
          · rw [h]; exact ha
          · rw [h]
            show session.authHandle.Authenticate u p = false
            rw [hg]; rfl
        have hgate := hf.1
        cases hl : handleLine U { session with rd := rest } (ReplaceCRLF l) with
        | panic s2 =>
          rw [hl] at hauth
          simpa [Run.session] using hauth
        | ok s2 =>
          rw [hl] at hauth hgate
          simp only [Run.session] at hauth hgate
          exact ih s2 hauth (by rw [hgate]; exact hg)

/-! ## The loop body by cases -/

/-- A line that starts with a space takes the first branch of the loop body. -/
theorem handleLine_leading_space (U : Str → Str) (session : Session) (rest : Str) :
    handleLine U session (sp :: rest) = Run.ok session := by
  simp [handleLine, Index_cons_sp]

/-- The loop body on a line with a non-empty tag before its first space, by cases. -/
theorem handleLine_tagged (U : Str → Str) (session : Session) (tag rest c : Str)
    (cs : List Str) (hsp : sp ∉ tag) (hne : tag ≠ []) (hsplit : Split rest sp = c :: cs) :
    handleLine U session (tag ++ sp :: rest) =
      if validTag tag = false then Run.ok (flushReply session tag [] badCommand)
      else if ToLower U c = ascii "auth" then
        match cs with
        | [] => Run.panic session
        | a :: _ => Run.ok (session.Authenticate (ToLower U c) a)
      else
        match session.srvMux.ImapCommand U (Join (ToLower U c :: cs) sp)
            { Status := [], Response := [], Auth := session.auth } with
        | none => Run.panic session
        | some reply => Run.ok (flushReply session tag reply.Status reply.Response) := by
  have hlen : 0 < tag.length := List.length_pos.2 hne
  have hidx : ¬ ((tag.length : Int) - 1 < 0) := by omega
  unfold handleLine
  simp only [Index_append tag rest sp hsp, hidx, if_false, Split_append tag rest sp hsp,
    hsplit]
  cases hv : validTag tag with
  | false => simp [hv, CommandNotFoundHandler.ImapCommand]
  | true =>
    by_cases hc : ToLower U c = ascii "auth"
    · cases cs with
      | nil => simp [hv, hc]
      | cons a as => simp [hv, hc, flushReply_empty]
    · simp [hv, hc, Session.IsAuth]

theorem flushReply_ok (session : Session) (tagStr statusBuf respBuf : Str)
    (hw : session.werr = false) (hb : session.wbuf = []) (hl : session.wlimit = none) :
    flushReply session tagStr statusBuf respBuf
      = { session with
          wr := session.wr
            ++ ((if statusBuf = [] then [] else ascii "*" ++ sp :: statusBuf ++ [nl])
              ++ (if respBuf = [] then [] else tagStr ++ sp :: respBuf ++ [nl])) } := by
  cases statusBuf with
  | nil =>
    cases respBuf with
    | nil => simp [flushReply]
    | cons b bs => simp [flushReply, Session.WriteLineTag, WriteLine_ok _ _ hw hb hl]
  | cons a as =>
    have h1 := WriteLine_ok session (ascii "*" ++ sp :: a :: as) hw hb hl
    cases respBuf with
    | nil =>
      simp [flushReply, Session.WriteStatus, Session.WriteLineTag, h1]
    | cons b bs =>
      simp only [flushReply, Session.WriteStatus, Session.WriteLineTag, List.length_cons,
        gt_iff_lt, Nat.zero_lt_succ, if_true, h1]
      have h2 := WriteLine_ok
        { session with wr := session.wr ++ (ascii "*" ++ sp :: a :: as ++ [nl]) }
        (tagStr ++ sp :: b :: bs) hw hb hl
      rw [h2]
      simp

theorem ImapCommand_ne_none (U : Str → Str) (m : ServeMux) (inputCommand : Str)
    (reply : ImapReply) : m.ImapCommand U inputCommand reply ≠ none := by
  cases hs : Split inputCommand sp with
  | nil => exact absurd hs (Split_ne_nil inputCommand sp)
  | cons tok rest =>
    simp only [ServeMux.ImapCommand, hs, List.getElem?_cons_zero]
    cases m.handlerTable (ToLower U tok) <;> simp

/-- The loop body panics on exactly one kind of line: a non-empty valid tag, a command that
lowercases to "auth", and nothing after it. Indexing at 0 and 1 never fails. -/
theorem handleLine_panicked_iff (U : Str → Str) (session : Session) (l : Str) :
    (handleLine U session l).panicked = true ↔
      ∃ tag rest c, l = tag ++ sp :: rest ∧ tag ≠ [] ∧ validTag tag = true ∧
        Split rest sp = [c] ∧ ToLower U c = ascii "auth" := by
  constructor
  · intro hp
    rcases line_cases l sp with h | ⟨tag, rest, hl, hsp⟩
    · simp [handleLine_no_space _ _ _ h, Run.panicked] at hp
    · subst hl
      by_cases hne : tag = []
      · subst hne
        simp [handleLine_leading_space, Run.panicked] at hp
      · cases hs : Split rest sp with
        | nil => exact absurd hs (Split_ne_nil rest sp)
        | cons c cs =>
          rw [handleLine_tagged U session tag rest c cs hsp hne hs] at hp
          cases hv : validTag tag with
          | false => simp [hv, Run.panicked] at hp
          | true =>
            by_cases hc : ToLower U c = ascii "auth"
            · cases cs with
              | nil => exact ⟨tag, rest, c, rfl, hne, hv, hs, hc⟩
              | cons a as => simp [hv, hc, Run.panicked] at hp
            · simp only [hv, hc, if_false] at hp
              cases hi : session.srvMux.ImapCommand U (Join (ToLower U c :: cs) sp)
                  { Status := [], Response := [], Auth := session.auth } with
              | none => exact absurd hi (ImapCommand_ne_none _ _ _ _)
              | some reply =>
                rw [hi] at hp
                simp [Run.panicked] at hp
  · rintro ⟨tag, rest, c, hl, hne, hv, hs, hc⟩
    subst hl
    rw [handleLine_tagged U session tag rest c [] (sp_not_mem_of_validTag tag hv) hne hs]
    simp [hv, hc, Run.panicked]


/-- The loop body on a line with a non-empty alphanumeric tag and a command that is not
auth: the handler the router selects (registered or not-found) is run on a reply whose Auth
is the flag of the session, its buffers are what is flushed, and the flag after the line is
the flag before it, whatever the handler does to the reply. -/
theorem handleLine_dispatch_reply (U : Str → Str) (session : Session)
    (tag rest cmd : Str) (args : List Str) (tok : Str) (h : Handler)
    (htag : tag ≠ []) (hvalid : ∀ b ∈ tag, alnumByte b = true)
    (hsplit : Split rest sp = cmd :: args)
    (hcmd : ToLower U cmd ≠ ascii "auth")
    (htok : (Split (Join (ToLower U cmd :: args) sp) sp)[0]? = some tok)
    (hsel : (match session.srvMux.handlerTable (ToLower U tok) with
             | some h1 => h1
             | none => CommandNotFoundHandler.toHandler) = h) :
    handleLine U session (tag ++ sp :: rest)
      = Run.ok (flushReply session tag
          (h.ImapCommand (Join (ToLower U cmd :: args) sp)
            { Status := [], Response := [], Auth := session.IsAuth }).Status
          (h.ImapCommand (Join (ToLower U cmd :: args) sp)
            { Status := [], Response := [], Auth := session.IsAuth }).Response) ∧
    (handleLine U session (tag ++ sp :: rest)).session.auth = session.auth := by
  have hv : validTag tag = true := (validTag_iff tag).2 hvalid
  have hsp : sp ∉ tag := sp_not_mem_of_validTag tag hv
  have hline : handleLine U session (tag ++ sp :: rest)
      = Run.ok (flushReply session tag
          (h.ImapCommand (Join (ToLower U cmd :: args) sp)
            { Status := [], Response := [], Auth := session.IsAuth }).Status
          (h.ImapCommand (Join (ToLower U cmd :: args) sp)
            { Status := [], Response := [], Auth := session.IsAuth }).Response) := by
    rw [handleLine_tagged U session tag rest cmd args hsp htag hsplit]
    simp only [hv, hcmd, if_false, Bool.true_eq_false, ServeMux.ImapCommand, htok,
      Session.IsAuth]
    subst hsel
    cases session.srvMux.handlerTable (ToLower U tok) <;> rfl
  refine ⟨hline, ?_⟩
  rw [hline]
  exact (flushReply_frame _ _ _ _).1

/-! ## Lemmas on the recorded calls -/

theorem handleLineTr_run (U : Str → Str) (session : Session) (l : Str) :
    (handleLineTr U session l).1 = handleLine U session l := by
  unfold handleLineTr handleLine
  simp only []
  repeat' split
  all_goals rfl

theorem handleConnLoopTr_run (U : Str → Str) (n : Nat) (session : Session) :
    (handleConnLoopTr U n session).1 = handleConnLoop U n session := by
  induction n generalizing session with
  | zero => rfl
  | succ n ih =>
    simp only [handleConnLoopTr, handleConnLoop]
    split
    · rfl
    · rcases hr : session.ReadLine with ⟨s1, ol⟩
      cases ol with
      | none => rfl
      | some l =>
        simp only []
        have hl := handleLineTr_run U s1 l
        rcases hq : handleLineTr U s1 l with ⟨r, calls⟩
        rw [hq] at hl
        simp only at hl
        rw [← hl]
        cases r with
        | ok s2 => simpa using ih s2
        | panic s2 => rfl

theorem lastGate_append (init : Bool) (a b : List Event) :
    lastGate init (a ++ b) = lastGate (lastGate init a) b := by
  induction a generalizing init with
  | nil => rfl
  | cons e es ih => cases e <;> simp [lastGate, ih]

theorem authFollowsGate_append (init : Bool) (a b : List Event) :
    authFollowsGate init (a ++ b)
      = (authFollowsGate init a && authFollowsGate (lastGate init a) b) := by
  induction a generalizing init with
  | nil => simp [authFollowsGate, lastGate]
  | cons e es ih => cases e <;> simp [authFollowsGate, lastGate, ih, Bool.and_assoc]

theorem authFollowsGate_at (init : Bool) (pre post : List Event) (arg : Str)
    (reply : ImapReply)
    (h : authFollowsGate init (pre ++ Event.handler arg reply :: post) = true) :
    reply.Auth = lastGate init pre := by
  rw [authFollowsGate_append] at h
  simp only [authFollowsGate, Bool.and_eq_true, beq_iff_eq] at h
  exact h.2.1

/-- The calls of one run of the loop body: the flag in every reply is the flag of the
session, the answer recorded for the gate is the answer of the gate of the session, and
the flag after the line is the answer of the gate when it was called, the flag before the
line otherwise. -/
theorem handleLineTr_calls (U : Str → Str) (session : Session) (l : Str) :
    authFollowsGate session.auth (handleLineTr U session l).2 = true ∧
    (handleLineTr U session l).1.session.auth
      = lastGate session.auth (handleLineTr U session l).2 ∧
    (∀ u p r, Event.gate u p r ∈ (handleLineTr U session l).2 →
      r = session.authHandle.Authenticate u p) := by
  unfold handleLineTr
  simp only []
  repeat' split
  all_goals
    refine ⟨?_, ?_, fun u p r hmem => ?_⟩
  all_goals
    first
    | (simp at hmem
       try (obtain ⟨rfl, rfl, rfl⟩ := hmem
            rfl))
    | simp [authFollowsGate, lastGate, Run.session, Session.IsAuth, Session.Authenticate,
        (flushReply_frame _ _ _ _).1]

theorem handleConnLoopTr_calls (U : Str → Str) (n : Nat) (session : Session) :
    authFollowsGate session.auth (handleConnLoopTr U n session).2 = true ∧
    (handleConnLoopTr U n session).1.session.auth
      = lastGate session.auth (handleConnLoopTr U n session).2 ∧
    (∀ u p r, Event.gate u p r ∈ (handleConnLoopTr U n session).2 →
      r = session.authHandle.Authenticate u p) := by
  induction n generalizing session with
  | zero => simp [handleConnLoopTr, authFollowsGate, lastGate, Run.session]
  | succ n ih =>
    simp only [handleConnLoopTr]
    split
    · simp [authFollowsGate, lastGate, Run.session]
    · cases hrd : ReadString session.rd nl with
      | none => simp [Session.ReadLine, hrd, authFollowsGate, lastGate, Run.session]
      | some q =>
        obtain ⟨l, rest⟩ := q
        simp only [Session.ReadLine, hrd]
        have hline := handleLineTr_calls U { session with rd := rest } (ReplaceCRLF l)
        have hrun := handleLineTr_run U { session with rd := rest } (ReplaceCRLF l)
        have hgate := (handleLine_frame U { session with rd := rest } (ReplaceCRLF l)).1
        rw [← hrun] at hgate
        rcases hq : handleLineTr U { session with rd := rest } (ReplaceCRLF l)
          with ⟨r, calls⟩
        rw [hq] at hline hgate
        simp only at hline hgate
        cases r with
        | panic s2 => exact hline
        | ok s2 =>
          simp only [Run.session] at hline hgate
          have ih2 := ih s2
          rw [hline.2.1] at ih2
          refine ⟨?_, ?_, ?_⟩
          · rw [authFollowsGate_append, hline.1, ih2.1]
            rfl
          · rw [lastGate_append]
            exact ih2.2.1
          · intro u p r hmem
            rcases List.mem_append.1 hmem with h | h
            · exact hline.2.2 u p r h
            · have := ih2.2.2 u p r h
              rw [this, hgate]

/-! ## Claims -/

/-- C1, as stated, fails: for the line "BAD!1 NOOP", whose tag "BAD!1" has the
non-alphanumeric byte "!", the output is not the bare not-found response: it is that
response behind the tag, so the tag is reflected at the start of the output. -/
theorem C1_counterexample :
    sp ∈ ascii "BAD!1 NOOP" ∧ validTag (ascii "BAD!1") = false ∧
    (handleLine id (mkSession NewServeMux DummyAuthHandler.toAuthHandler [])
        (ascii "BAD!1 NOOP")).session.wr
      = ascii "BAD!1" ++ (sp :: (badCommand ++ [nl])) ∧
    (handleLine id (mkSession NewServeMux DummyAuthHandler.toAuthHandler [])
        (ascii "BAD!1 NOOP")).session.wr ≠ badCommand ++ [nl] ∧
    (handleLine id (mkSession NewServeMux DummyAuthHandler.toAuthHandler [])
        (ascii "BAD!1 NOOP")).session.wr ≠ badCommand := by
  decide

/-- C1, amended: for every line `tag ++ " " ++ rest` whose tag (no space in it) has a byte
that is not an ASCII letter or digit, handleConn on a working writer (no error, empty
buffer, a connection that does not fail) writes exactly one line, the tag as received, a space, the fixed not-found response and the terminator,
and changes nothing else in the session (router and gate are not consulted). -/
theorem C1_invalid_tag_line (U : Str → Str) (session : Session) (tag rest : Str)
    (hsp : sp ∉ tag) (hbad : ∃ b ∈ tag, alnumByte b = false)
    (hw : session.werr = false) (hb : session.wbuf = []) (hl : session.wlimit = none) :
    handleLine U session (tag ++ sp :: rest)
      = Run.ok { session with wr := session.wr ++ (tag ++ sp :: badCommand ++ [nl]) } := by
  have hv : validTag tag = false := validTag_false_of_mem tag hbad
  have hne : tag ≠ [] := by
    rintro rfl
    simp [validTag] at hv
  have hlen : 0 < tag.length := List.length_pos.2 hne
  have hidx : ¬ ((tag.length : Int) - 1 < 0) := by omega
  have hbc : badCommand ≠ [] := by decide
  unfold handleLine
  simp only [Index_append tag rest sp hsp, hidx, if_false, Split_append tag rest sp hsp]
  cases hs : Split rest sp with
  | nil => exact absurd hs (Split_ne_nil rest sp)
  | cons c cs =>
    simp [hv, CommandNotFoundHandler.ImapCommand, flushReply_resp _ _ _ hbc hw hb hl]

/-- Witness of C1_invalid_tag_line: the line "BAD!1 NOOP". -/
theorem C1_invalid_tag_line_witness :
    handleLine id (mkSession NewServeMux DummyAuthHandler.toAuthHandler [])
        (ascii "BAD!1" ++ sp :: ascii "NOOP")
      = Run.ok { mkSession NewServeMux DummyAuthHandler.toAuthHandler [] with
          wr := (mkSession NewServeMux DummyAuthHandler.toAuthHandler []).wr
            ++ (ascii "BAD!1" ++ sp :: badCommand ++ [nl]) } :=
  C1_invalid_tag_line id (mkSession NewServeMux DummyAuthHandler.toAuthHandler [])
    (ascii "BAD!1") (ascii "NOOP") (by decide) ⟨33, by decide, by decide⟩ rfl rfl rfl

/-- C2, the code at the failing input: for the line "GARBAGE" (no space) handleConn writes
nothing at all, in any session: the not-found response stays in the reply buffer. The loop
does go on: after "GARBAGE" the next line "A1 NOOP" is read and answered. -/
theorem C2_no_space_line_writes_nothing :
    (∀ (U : Str → Str) (session : Session),
      handleLine U session (ascii "GARBAGE") = Run.ok session) ∧
    (handleConn id (mkSession NewServeMux DummyAuthHandler.toAuthHandler
        (ascii "GARBAGE\r\nA1 NOOP\r\n"))).session.wr
      = ascii "A1 BAD error in IMAP command received by server\n" := by
  refine ⟨fun U session => ?_, by decide⟩
  have hidx : Index (ascii "GARBAGE") sp - 1 < 0 := by decide
  simp [handleLine, hidx]

/-- C3, the code at the failing input: for "A02 auth alice secret" with a gate that accepts
only ("alice", "secret"), the gate is asked about ("auth", "alice"), the tokens at positions
1 and 2 of the split line, and the flag is false afterwards. -/
theorem C3_auth_tokens_off_by_one :
    aliceGate.Authenticate (ascii "alice") (ascii "secret") = true ∧
    (∀ (U : Str → Str) (mux : ServeMux) (conn : Str),
      handleLine U (mkSession mux aliceGate conn) (ascii "A02 auth alice secret")
        = Run.ok { mkSession mux aliceGate conn with
            auth := aliceGate.Authenticate (ascii "auth") (ascii "alice") }) ∧
    (handleLine id (mkSession NewServeMux aliceGate [])
        (ascii "A02 auth alice secret")).session.auth = false := by
  refine ⟨by decide, fun U mux conn => ?_, by decide⟩
  have hidx : ¬ (Index (ascii "A02 auth alice secret") sp - 1 < 0) := by decide
  have hsplit : Split (ascii "A02 auth alice secret") sp
      = [ascii "A02", ascii "auth", ascii "alice", ascii "secret"] := by decide
  have hlow : ToLower U (ascii "auth") = ascii "auth" := by
    simp [ToLower, ascii, lowerByte]
  have hv : validTag (ascii "A02") = true := by decide
  simp [handleLine, hidx, hsplit, hlow, hv, Session.Authenticate, flushReply_empty, mkSession]

/-- C4, the code at the failing input: a handler registered as "FETCH" is stored under
"FETCH" as given, not under "fetch"; the router looks up the lowercased token, so
dispatching "FETCH", "fetch" or "FeTcH" runs the not-found handler and never `h`. -/
theorem C4_uppercase_registration_not_dispatched (U : Str → Str) (h : Handler)
    (reply : ImapReply) :
    (NewServeMux.Handle (ascii "FETCH") h).handlerTable (ascii "fetch") = none ∧
    (NewServeMux.Handle (ascii "FETCH") h).ImapCommand U (ascii "FETCH") reply
      = some (CommandNotFoundHandler.ImapCommand (ascii "FETCH") reply) ∧
    (NewServeMux.Handle (ascii "FETCH") h).ImapCommand U (ascii "fetch") reply
      = some (CommandNotFoundHandler.ImapCommand (ascii "fetch") reply) ∧
    (NewServeMux.Handle (ascii "FETCH") h).ImapCommand U (ascii "FeTcH") reply
      = some (CommandNotFoundHandler.ImapCommand (ascii "FeTcH") reply) := by
  refine ⟨rfl, rfl, rfl, rfl⟩

/-- C5: when the lowercased first token of the input is not a key of the table,
ServeMux.ImapCommand returns the reply of the not-found handler: the fixed text is appended
to the response buffer, the status buffer and the flag are as before. -/
theorem C5_unregistered_command_not_found (U : Str → Str) (s : ServeMux)
    (inputCommand tok : Str) (reply : ImapReply)
    (htok : (Split inputCommand sp)[0]? = some tok)
    (hkey : s.handlerTable (ToLower U tok) = none) :
    s.ImapCommand U inputCommand reply
      = some { Status := reply.Status,
               Response := reply.Response
                 ++ ascii "BAD error in IMAP command received by server",
               Auth := reply.Auth } := by
  simp [ServeMux.ImapCommand, htok, hkey, CommandNotFoundHandler.ImapCommand, badCommand]

/-- Witness of C5_unregistered_command_not_found: "STATUS inbox" on a router that only knows
"noop". -/
theorem C5_unregistered_command_not_found_witness :
    (NewServeMux.Handle (ascii "noop") okDone).ImapCommand id (ascii "STATUS inbox")
        { Status := [], Response := [], Auth := false }
      = some { Status := [],
               Response := [] ++ ascii "BAD error in IMAP command received by server",
               Auth := false } :=
  C5_unregistered_command_not_found id (NewServeMux.Handle (ascii "noop") okDone)
    (ascii "STATUS inbox") (ascii "STATUS") { Status := [], Response := [], Auth := false }
    (by decide) rfl

/-- C6: for a line `tag ++ " " ++ rest` with a non-empty alphanumeric tag, whose command is
not auth and is routed to a registered handler `h` that leaves `r`, not empty, in the
response buffer and nothing in the status buffer, handleConn on a working writer (no
error, empty buffer, a connection that does not fail) writes exactly the line `tag ++ " " ++ r ++ "\n"` and changes nothing else. -/
theorem C6_tagged_response_line (U : Str → Str) (session : Session)
    (tag rest cmd : Str) (args : List Str) (tok : Str) (h : Handler) (r : Str) (a : Bool)
    (htag : tag ≠ []) (hvalid : ∀ b ∈ tag, alnumByte b = true)
    (hsplit : Split rest sp = cmd :: args)
    (hcmd : ToLower U cmd ≠ ascii "auth")
    (htok : (Split (Join (ToLower U cmd :: args) sp) sp)[0]? = some tok)
    (hreg : session.srvMux.handlerTable (ToLower U tok) = some h)
    (hh : h.ImapCommand (Join (ToLower U cmd :: args) sp)
        { Status := [], Response := [], Auth := session.auth }
      = { Status := [], Response := r, Auth := a })
    (hr : r ≠ []) (hw : session.werr = false) (hb : session.wbuf = [])
    (hl : session.wlimit = none) :
    handleLine U session (tag ++ sp :: rest)
      = Run.ok { session with wr := session.wr ++ (tag ++ sp :: r ++ [nl]) } := by
  have hv : validTag tag = true := (validTag_iff tag).2 hvalid
  have hsp : sp ∉ tag := sp_not_mem_of_validTag tag hv
  have hlen : 0 < tag.length := List.length_pos.2 htag
  have hidx : ¬ ((tag.length : Int) - 1 < 0) := by omega
  unfold handleLine
  simp only [Index_append tag rest sp hsp, hidx, if_false, Split_append tag rest sp hsp,
    hsplit]
  simp [hv, hcmd, ServeMux.ImapCommand, htok, hreg, hh, Session.IsAuth,
    flushReply_resp _ _ _ hr hw hb hl]

/-- Witness of C6_tagged_response_line: "A01 NOOP" with a handler writing "OK done" yields
"A01 OK done". -/
theorem C6_tagged_response_line_witness :
    handleLine id (mkSession (NewServeMux.Handle (ascii "noop") okDone) aliceGate [])
        (ascii "A01" ++ sp :: ascii "NOOP")
      = Run.ok { mkSession (NewServeMux.Handle (ascii "noop") okDone) aliceGate [] with
          wr := (mkSession (NewServeMux.Handle (ascii "noop") okDone) aliceGate []).wr
            ++ (ascii "A01" ++ sp :: ascii "OK done" ++ [nl]) } :=
  C6_tagged_response_line id (mkSession (NewServeMux.Handle (ascii "noop") okDone) aliceGate [])
    (ascii "A01") (ascii "NOOP") (ascii "NOOP") [] (ascii "noop") okDone (ascii "OK done") false
    (by decide) (by decide) (by decide) (by decide) (by decide) rfl rfl (by decide) rfl
    rfl rfl

/-- C7, the code at the failing input: after Handle("FETCH", h1) and Handle("FETCH", h2) a
dispatch of "FETCH" runs the not-found handler and not `h2` (with the handlers of the
fixtures: the reply is not the one of the second handler): the name is stored as given and
looked up lowercased, the defect of C4. What holds: for Handle and HandleFunc in any mix
the second handler is the one stored under `n`, the table after the two registrations is
the table after the second alone, and a dispatch whose lowercased first token is `n` runs
the second handler, on the input and the reply as they are. -/
theorem C7_second_registration_dispatch (U : Str → Str) (m : ServeMux) (n : Str)
    (h1 h2 : Handler) (f1 f2 : Str → ImapReply → ImapReply) (reply : ImapReply) :
    ((NewServeMux.Handle (ascii "FETCH") h1).Handle (ascii "FETCH") h2).ImapCommand U
        (ascii "FETCH") reply
      = some (CommandNotFoundHandler.ImapCommand (ascii "FETCH") reply) ∧
    ((NewServeMux.Handle (ascii "FETCH") authEcho).Handle (ascii "FETCH") okDone).ImapCommand id
        (ascii "FETCH") { Status := [], Response := [], Auth := false }
      ≠ some (okDone.ImapCommand (ascii "FETCH")
          { Status := [], Response := [], Auth := false }) ∧
    ((m.Handle n h1).Handle n h2).handlerTable n = some h2 ∧
    ((m.HandleFunc n f1).Handle n h2).handlerTable n = some h2 ∧
    ((m.Handle n h1).HandleFunc n f2).handlerTable n = some (newFuncHandler f2).toHandler ∧
    ((m.HandleFunc n f1).HandleFunc n f2).handlerTable n
      = some (newFuncHandler f2).toHandler ∧
    (m.Handle n h1).Handle n h2 = m.Handle n h2 ∧
    (m.HandleFunc n f1).Handle n h2 = m.Handle n h2 ∧
    (m.Handle n h1).HandleFunc n f2 = m.HandleFunc n f2 ∧
    (m.HandleFunc n f1).HandleFunc n f2 = m.HandleFunc n f2 ∧
    (∀ (s tok : Str), (Split s sp)[0]? = some tok → ToLower U tok = n →
      ((m.Handle n h1).Handle n h2).ImapCommand U s reply = some (h2.ImapCommand s reply) ∧
      ((m.HandleFunc n f1).Handle n h2).ImapCommand U s reply
        = some (h2.ImapCommand s reply) ∧
      ((m.Handle n h1).HandleFunc n f2).ImapCommand U s reply = some (f2 s reply) ∧
      ((m.HandleFunc n f1).HandleFunc n f2).ImapCommand U s reply = some (f2 s reply)) := by
  have e1 : (m.Handle n h1).Handle n h2 = m.Handle n h2 := by
    simp only [ServeMux.Handle, ServeMux.mk.injEq]
    funext k
    split <;> rfl
  have e2 : (m.HandleFunc n f1).Handle n h2 = m.Handle n h2 := by
    simp only [ServeMux.Handle, ServeMux.HandleFunc, ServeMux.mk.injEq]
    funext k
    split <;> rfl
  have e3 : (m.Handle n h1).HandleFunc n f2 = m.HandleFunc n f2 := by
    simp only [ServeMux.Handle, ServeMux.HandleFunc, ServeMux.mk.injEq]
    funext k
    split <;> rfl
  have e4 : (m.HandleFunc n f1).HandleFunc n f2 = m.HandleFunc n f2 := by
    simp only [ServeMux.HandleFunc, ServeMux.mk.injEq]
    funext k
    split <;> rfl
  refine ⟨rfl, by decide, ?_, ?_, ?_, ?_, e1, e2, e3, e4, fun s tok htok hn => ?_⟩
  · simp [ServeMux.Handle]
  · simp [ServeMux.Handle]
  · simp [ServeMux.HandleFunc]
  · simp [ServeMux.HandleFunc]
  · subst hn
    refine ⟨?_, ?_, ?_, ?_⟩
    · simp [ServeMux.ImapCommand, ServeMux.Handle, htok]
    · simp [ServeMux.ImapCommand, ServeMux.Handle, htok]
    · simp [ServeMux.ImapCommand, ServeMux.HandleFunc, htok, funcHandler.toHandler,
        funcHandler.ImapCommand, newFuncHandler]
    · simp [ServeMux.ImapCommand, ServeMux.HandleFunc, htok, funcHandler.toHandler,
        funcHandler.ImapCommand, newFuncHandler]

/-- C8: the default gate denies every username and password; a session built by NewSession
starts with the flag false and that gate installed; and after any number of iterations of
the handleConn loop on any input stream, with any router and connection, the flag of such
a session is false, also when the run ends in a panic. -/
theorem C8_default_gate_fails_closed :
    (∀ u p : Str, DummyAuthHandler.Authenticate u p = false) ∧
    (∀ (mux : ServeMux) (conn : Str) (connLimit : Option Nat) (timeout : Nat),
      (NewSession mux conn connLimit timeout).auth = false ∧
      (NewSession mux conn connLimit timeout).authHandle = DummyAuthHandler.toAuthHandler) ∧
    (∀ (U : Str → Str) (mux : ServeMux) (conn : Str) (connLimit : Option Nat)
        (timeout n : Nat),
      (handleConnLoop U n (NewSession mux conn connLimit timeout)).session.auth = false) ∧
    (∀ (U : Str → Str) (mux : ServeMux) (conn : Str) (connLimit : Option Nat)
        (timeout : Nat),
      (handleConn U (NewSession mux conn connLimit timeout)).session.auth = false) := by
  refine ⟨fun _ _ => rfl, fun _ _ _ _ => ⟨rfl, rfl⟩, fun U mux conn connLimit timeout n => ?_,
    fun U mux conn connLimit timeout => ?_⟩
  · exact handleConnLoop_dummy U n _ rfl rfl
  · exact handleConnLoop_dummy U _ _ rfl rfl

/-- C9: for a line `tag ++ " " ++ rest` with a non-empty alphanumeric tag whose command
lowercases to "auth" and is followed by at least two more tokens, handleConn writes
nothing (`wr` is as before, whatever the gate answers) and the session after the line does
not depend on the handlers of the router: only the flag changes, to the answer of the
gate. -/
theorem C9_auth_line_writes_nothing (U : Str → Str) (session : Session)
    (tag rest cmd u p : Str) (more : List Str)
    (htag : tag ≠ []) (hvalid : ∀ b ∈ tag, alnumByte b = true)
    (hsplit : Split rest sp = cmd :: u :: p :: more)
    (hcmd : ToLower U cmd = ascii "auth") :
    handleLine U session (tag ++ sp :: rest)
      = Run.ok { session with auth := session.authHandle.Authenticate (ascii "auth") u } := by
  have hv : validTag tag = true := (validTag_iff tag).2 hvalid
  have hsp : sp ∉ tag := sp_not_mem_of_validTag tag hv
  have hlen : 0 < tag.length := List.length_pos.2 htag
  have hidx : ¬ ((tag.length : Int) - 1 < 0) := by omega
  unfold handleLine
  simp only [Index_append tag rest sp hsp, hidx, if_false, Split_append tag rest sp hsp,
    hsplit]
  simp [hv, hcmd, Session.Authenticate, flushReply_empty]

/-- Witness of C9_auth_line_writes_nothing: "A02 AuTh alice secret" on a router with a
handler registered under "auth". -/
theorem C9_auth_line_writes_nothing_witness :
    handleLine id (mkSession (NewServeMux.Handle (ascii "auth") okDone) aliceGate [])
        (ascii "A02" ++ sp :: ascii "AuTh alice secret")
      = Run.ok { mkSession (NewServeMux.Handle (ascii "auth") okDone) aliceGate [] with
          auth := (mkSession (NewServeMux.Handle (ascii "auth") okDone) aliceGate []).authHandle.Authenticate
            (ascii "auth") (ascii "alice") } :=
  C9_auth_line_writes_nothing id
    (mkSession (NewServeMux.Handle (ascii "auth") okDone) aliceGate [])
    (ascii "A02") (ascii "AuTh alice secret") (ascii "AuTh") (ascii "alice") (ascii "secret") []
    (by decide) (by decide) (by decide) (by decide)

/-- C10: ServeMux.ImapCommand hands the input string as it is and the reply as it is to
the handler it selects: the handler stored under the lowercased first token, or the
not-found handler when there is none; a function registered through HandleFunc receives
the same two arguments. -/
theorem C10_router_passes_input_unchanged (U : Str → Str) (s : ServeMux)
    (inputCommand : Str) (reply : ImapReply) :
    (∃ tok, (Split inputCommand sp)[0]? = some tok ∧
      s.ImapCommand U inputCommand reply
        = some ((match s.handlerTable (ToLower U tok) with
                 | some h => h
                 | none => CommandNotFoundHandler.toHandler).ImapCommand inputCommand reply)) ∧
    (∀ f : Str → ImapReply → ImapReply,
      (newFuncHandler f).toHandler.ImapCommand inputCommand reply = f inputCommand reply) := by
  refine ⟨?_, fun f => rfl⟩
  cases hs : Split inputCommand sp with
  | nil => exact absurd hs (Split_ne_nil inputCommand sp)
  | cons tok rest =>
    refine ⟨tok, by simp, ?_⟩
    simp only [ServeMux.ImapCommand, hs, List.getElem?_cons_zero]
    cases s.handlerTable (ToLower U tok) <;> rfl

/-- C11, as stated, fails: validTag accepts the empty string, which is not a non-empty
string of letters and digits. -/
theorem C11_counterexample :
    validTag [] = true ∧
    ¬ (validTag [] = true ↔ (([] : Str) ≠ [] ∧ ∀ b ∈ ([] : Str), alnumByte b = true)) := by
  simp [validTag]

/-- C11, amended: validTag(t) is true exactly when every byte of t is an ASCII digit or
letter; so it accepts the empty string and rejects every string with a byte at or above
0x80. -/
theorem C11_validTag_all_alnum (t : Str) :
    (validTag t = true ↔
      ∀ b ∈ t, (48 ≤ b ∧ b ≤ 57) ∨ (65 ≤ b ∧ b ≤ 90) ∨ (97 ≤ b ∧ b ≤ 122)) ∧
    validTag [] = true ∧
    (∀ b ∈ t, 128 ≤ b → validTag t = false) := by
  have hiff : validTag t = true ↔
      ∀ b ∈ t, (48 ≤ b ∧ b ≤ 57) ∨ (65 ≤ b ∧ b ≤ 90) ∨ (97 ≤ b ∧ b ≤ 122) := by
    rw [validTag_iff]
    constructor
    · intro h b hb
      have := h b hb
      simp only [alnumByte, Bool.or_eq_true, Bool.and_eq_true, decide_eq_true_eq] at this
      omega
    · intro h b hb
      have := h b hb
      simp only [alnumByte, Bool.or_eq_true, Bool.and_eq_true, decide_eq_true_eq]
      omega
  refine ⟨hiff, rfl, fun b hb hge => ?_⟩
  cases hv : validTag t with
  | false => rfl
  | true =>
    have := hiff.1 hv b hb
    omega

/-- C13, as stated, fails: for the raw line "NOOP\n", ended by a bare "\n", ReadLine
returns "NOOP\n", which contains "\n". -/
theorem C13_counterexample :
    ((mkSession NewServeMux openGate (ascii "NOOP\n")).ReadLine).2 = some (ascii "NOOP\n") ∧
    nl ∈ ascii "NOOP\n" := by
  decide

/-- C13, amended: for a raw line `body ++ "\r\n"` with no "\n" in `body`, ReadLine returns
`body`, which contains no "\n", and leaves the rest of the stream; for a raw line
`body ++ "\n"` whose `body` does not end in "\r", ReadLine returns the raw line as it is,
"\n" included. -/
theorem C13_ReadLine_strips_crlf_only (s : Session) (body more : Str) (h : nl ∉ body) :
    ({ s with rd := body ++ cr :: nl :: more } : Session).ReadLine
      = ({ s with rd := more }, some body) ∧
    (body.getLast? ≠ some cr →
      ({ s with rd := body ++ nl :: more } : Session).ReadLine
        = ({ s with rd := more }, some (body ++ [nl]))) := by
  constructor
  · have hpre : nl ∉ body ++ [cr] := by
      intro hmem
      rcases List.mem_append.1 hmem with e | e
      · exact h e
      · simp [nl, cr] at e
    have hrd : ReadString (body ++ cr :: nl :: more) nl
        = some ((body ++ [cr]) ++ [nl], more) := by
      have := ReadString_append (body ++ [cr]) more nl hpre
      simpa using this
    have hrep : ReplaceCRLF ((body ++ [cr]) ++ [nl]) = body := by
      have := ReplaceCRLF_crlf body h
      simpa using this
    simp only [Session.ReadLine, hrd, hrep]
  · intro hlast
    have hrd := ReadString_append body more nl h
    simp only [Session.ReadLine, hrd, ReplaceCRLF_bare_nl body h hlast]

/-- Witness of C13_ReadLine_strips_crlf_only: the streams "A01 NOOP\r\n" and
"A01 NOOP\n". -/
theorem C13_ReadLine_strips_crlf_only_witness :
    ({ mkSession NewServeMux openGate [] with rd := ascii "A01 NOOP" ++ cr :: nl :: [] }
        : Session).ReadLine
      = ({ mkSession NewServeMux openGate [] with rd := [] }, some (ascii "A01 NOOP")) ∧
    ({ mkSession NewServeMux openGate [] with rd := ascii "A01 NOOP" ++ nl :: [] }
        : Session).ReadLine
      = ({ mkSession NewServeMux openGate [] with rd := [] },
          some (ascii "A01 NOOP" ++ [nl])) :=
  ⟨(C13_ReadLine_strips_crlf_only (mkSession NewServeMux openGate []) (ascii "A01 NOOP") []
      (by decide)).1,
   (C13_ReadLine_strips_crlf_only (mkSession NewServeMux openGate []) (ascii "A01 NOOP") []
      (by decide)).2 (by decide)⟩

/-- C14: for a line `tag ++ " " ++ rest` with a non-empty alphanumeric tag and a command
that is not auth, dispatched to a handler that leaves `st` in the status buffer and `r` in
the response buffer, handleConn on a working writer (no error, empty buffer, a connection
that does not fail) writes the line "* " ++ st when
`st` is not empty and then the line tag ++ " " ++ r when `r` is not empty, each followed by
"\n", and nothing else; nothing at all when both are empty. -/
theorem C14_status_then_response (U : Str → Str) (session : Session)
    (tag rest cmd : Str) (args : List Str) (st r : Str) (a : Bool)
    (htag : tag ≠ []) (hvalid : ∀ b ∈ tag, alnumByte b = true)
    (hsplit : Split rest sp = cmd :: args)
    (hcmd : ToLower U cmd ≠ ascii "auth")
    (hh : session.srvMux.ImapCommand U (Join (ToLower U cmd :: args) sp)
        { Status := [], Response := [], Auth := session.auth }
      = some { Status := st, Response := r, Auth := a })
    (hw : session.werr = false) (hb : session.wbuf = []) (hl : session.wlimit = none) :
    handleLine U session (tag ++ sp :: rest)
      = Run.ok { session with
          wr := session.wr
            ++ ((if st = [] then [] else ascii "*" ++ sp :: st ++ [nl])
              ++ (if r = [] then [] else tag ++ sp :: r ++ [nl])) } := by
  have hv : validTag tag = true := (validTag_iff tag).2 hvalid
  have hsp : sp ∉ tag := sp_not_mem_of_validTag tag hv
  rw [handleLine_tagged U session tag rest cmd args hsp htag hsplit]
  simp only [hv, hcmd, if_false, hh, Bool.true_eq_false]
  rw [flushReply_ok session tag st r hw hb hl]

/-- Witness of C14_status_then_response: "A7 who" with a handler that writes "seen" to the
status buffer and "no" to the response buffer yields "* seen" and then "A7 no". -/
theorem C14_status_then_response_witness :
    handleLine id (mkSession (NewServeMux.Handle (ascii "who") authEcho) openGate [])
        (ascii "A7" ++ sp :: ascii "who")
      = Run.ok { mkSession (NewServeMux.Handle (ascii "who") authEcho) openGate [] with
          wr := (mkSession (NewServeMux.Handle (ascii "who") authEcho) openGate []).wr
            ++ ((if ascii "seen" = [] then [] else ascii "*" ++ sp :: ascii "seen" ++ [nl])
              ++ (if ascii "no" = [] then [] else ascii "A7" ++ sp :: ascii "no" ++ [nl])) } :=
  C14_status_then_response id (mkSession (NewServeMux.Handle (ascii "who") authEcho) openGate [])
    (ascii "A7") (ascii "who") (ascii "who") [] (ascii "seen") (ascii "no") false
    (by decide) (by decide) (by decide) (by decide) (by decide) rfl rfl rfl

/-- C15: in every run of the handleConn loop, on any input stream and from any session,
every reply handed to a handler (the router, which hands it on to the registered or the
not-found handler, or the not-found handler itself) has as its Auth the answer of the most
recent call of the gate made earlier in the run, or the flag the session started with when
there is none, which is false for a new session; the answers recorded are the answers of
the gate of the session, and the flag at the end of the run is again the most recent
answer. What a handler does to the Auth of its reply changes nothing: in the run at the
end, the handler clears it and the next reply still carries the answer of the gate. -/
theorem C15_reply_auth_is_last_gate_answer (U : Str → Str) (n : Nat) (session : Session) :
    (handleConnLoopTr U n session).1 = handleConnLoop U n session ∧
    (∀ (pre post : List Event) (arg : Str) (reply : ImapReply),
      (handleConnLoopTr U n session).2 = pre ++ Event.handler arg reply :: post →
      reply.Auth = lastGate session.auth pre) ∧
    (∀ (u p : Str) (r : Bool), Event.gate u p r ∈ (handleConnLoopTr U n session).2 →
      r = session.authHandle.Authenticate u p) ∧
    (handleConnLoop U n session).session.auth
      = lastGate session.auth (handleConnLoopTr U n session).2 ∧
    (∀ (mux : ServeMux) (conn : Str) (connLimit : Option Nat) (timeout : Nat),
      (NewSession mux conn connLimit timeout).IsAuth = false) ∧
    (handleConnLoopTr id 4
        (mkSession (NewServeMux.Handle (ascii "who") authEcho) openGate
          (ascii "A1 who\r\nA2 auth x\r\nA3 who\r\n"))).2
      = [Event.handler (ascii "who") { Status := [], Response := [], Auth := false },
         Event.gate (ascii "auth") (ascii "x") true,
         Event.handler (ascii "who") { Status := [], Response := [], Auth := true }] ∧
    (handleConn id
        (mkSession (NewServeMux.Handle (ascii "who") authEcho) openGate
          (ascii "A1 who\r\nA2 auth x\r\nA3 who\r\n"))).session.wr
      = ascii "* seen\nA1 no\n* seen\nA3 yes\n" := by
  have hcalls := handleConnLoopTr_calls U n session
  have hrun := handleConnLoopTr_run U n session
  refine ⟨hrun, fun pre post arg reply hsplit => ?_, hcalls.2.2, ?_, fun _ _ _ _ => rfl,
    by decide, by decide⟩
  · have h := hcalls.1
    rw [hsplit] at h
    exact authFollowsGate_at session.auth pre post arg reply h
  · rw [← hrun]
    exact hcalls.2.1

/-- C16: Session.Authenticate(u, p) sets the flag to the answer of the gate for (u, p),
whatever the flag was, and leaves every other field as it is; a flag that is true is reset
to false by a rejected attempt. -/
theorem C16_Authenticate_frame (s : Session) (u p : Str) :
    (s.Authenticate u p).auth = s.authHandle.Authenticate u p ∧
    ({ s with auth := true } : Session).Authenticate u p = s.Authenticate u p ∧
    ({ s with auth := false } : Session).Authenticate u p = s.Authenticate u p ∧
    (s.Authenticate u p).closed = s.closed ∧
    (s.Authenticate u p).srvMux = s.srvMux ∧
    (s.Authenticate u p).authHandle = s.authHandle ∧
    (s.Authenticate u p).timeout = s.timeout ∧
    (s.Authenticate u p).rd = s.rd ∧
    (s.Authenticate u p).wr = s.wr ∧
    (s.Authenticate u p).wlimit = s.wlimit ∧
    (s.Authenticate u p).wbuf = s.wbuf ∧
    (s.Authenticate u p).werr = s.werr ∧
    (({ mkSession NewServeMux aliceGate [] with auth := true } : Session).Authenticate
      (ascii "alice") (ascii "wrong")).auth = false := by
  refine ⟨rfl, rfl, rfl, rfl, rfl, rfl, rfl, rfl, rfl, rfl, rfl, rfl, by decide⟩

/-- C17, the code at the failing input: the line "A1 auth" has a valid tag, the command
auth and no further token, so the split has two elements and `splitL[2]` is out of range:
the loop body panics, in any session, and handleConn on the stream "A1 auth\r\n" followed
by another line ends in that panic. "A1 auth alice" does not panic. -/
theorem C17_auth_without_argument_panics :
    Split (ascii "A1 auth") sp = [ascii "A1", ascii "auth"] ∧
    (∀ (U : Str → Str) (session : Session),
      handleLine U session (ascii "A1 auth") = Run.panic session) ∧
    (handleConn id (mkSession NewServeMux openGate (ascii "A1 auth\r\nA2 NOOP\r\n"))).panicked
      = true ∧
    (handleConn id (mkSession NewServeMux openGate (ascii "A1 auth\r\nA2 NOOP\r\n"))).session.wr
      = [] ∧
    (handleLine id (mkSession NewServeMux openGate []) (ascii "A1 auth alice")).panicked
      = false := by
  refine ⟨by decide, fun U session => ?_, by decide, by decide, by decide⟩
  have hlow : ToLower U (ascii "auth") = ascii "auth" := by
    simp [ToLower, ascii, lowerByte]
  have h := handleLine_tagged U session (ascii "A1") (ascii "auth") (ascii "auth") []
    (by decide) (by decide) (by decide)
  have hv : validTag (ascii "A1") = true := by decide
  simp only [hv, hlow, if_true, Bool.true_eq_false, if_false] at h
  exact h

/-- C18: for a line `tag ++ " " ++ rest` with a non-empty alphanumeric tag and a command
`cmd` (the first token of `rest`) that is not auth, the string handed to the router is the
lowercased `cmd` followed by `rest` without its first `cmd.length` bytes: splitting and
joining gives `rest` back byte for byte, and only the command name is re-cased. -/
theorem C18_router_gets_remainder (U : Str → Str) (session : Session)
    (tag rest cmd : Str) (args : List Str)
    (htag : tag ≠ []) (hvalid : ∀ b ∈ tag, alnumByte b = true)
    (hsplit : Split rest sp = cmd :: args)
    (hcmd : ToLower U cmd ≠ ascii "auth") :
    Join (Split rest sp) sp = rest ∧
    rest = cmd ++ rest.drop cmd.length ∧
    handleLine U session (tag ++ sp :: rest)
      = (match session.srvMux.ImapCommand U (ToLower U cmd ++ rest.drop cmd.length)
            { Status := [], Response := [], Auth := session.auth } with
         | none => Run.panic session
         | some reply => Run.ok (flushReply session tag reply.Status reply.Response)) := by
  have hv : validTag tag = true := (validTag_iff tag).2 hvalid
  have hsp : sp ∉ tag := sp_not_mem_of_validTag tag hv
  refine ⟨Join_Split rest sp, Split_head_append rest sp cmd args hsplit, ?_⟩
  rw [handleLine_tagged U session tag rest cmd args hsp htag hsplit,
    Join_Split_tail rest sp cmd args (ToLower U cmd) hsplit]
  simp only [hv, hcmd, if_false, Bool.true_eq_false]

/-- Witness of C18_router_gets_remainder: "A5 FETCH 1  Body " (two spaces in a row, a
trailing space, an uppercase letter in the argument) reaches the router as
"fetch 1  Body ". -/
theorem C18_router_gets_remainder_witness :
    ToLower id (ascii "FETCH") ++ (ascii "FETCH 1  Body ").drop (ascii "FETCH").length
      = ascii "fetch 1  Body " ∧
    handleLine id (mkSession (NewServeMux.Handle (ascii "fetch") okDone) openGate [])
        (ascii "A5" ++ sp :: ascii "FETCH 1  Body ")
      = (match (mkSession (NewServeMux.Handle (ascii "fetch") okDone) openGate []).srvMux.ImapCommand
            id (ToLower id (ascii "FETCH") ++ (ascii "FETCH 1  Body ").drop (ascii "FETCH").length)
            { Status := [], Response := [],
              Auth := (mkSession (NewServeMux.Handle (ascii "fetch") okDone) openGate []).auth } with
         | none => Run.panic (mkSession (NewServeMux.Handle (ascii "fetch") okDone) openGate [])
         | some reply =>
           Run.ok (flushReply (mkSession (NewServeMux.Handle (ascii "fetch") okDone) openGate [])
             (ascii "A5") reply.Status reply.Response)) :=
  ⟨by decide,
   (C18_router_gets_remainder id
      (mkSession (NewServeMux.Handle (ascii "fetch") okDone) openGate [])
      (ascii "A5") (ascii "FETCH 1  Body ") (ascii "FETCH")
      [ascii "1", [], ascii "Body", []]
      (by decide) (by decide) (by decide) (by decide)).2.2⟩

end Imap
